import Mathlib

/-!
Verification development for the coroaiphotobooth video task lifecycle
controller: a shallow embedding of the Gallery ledger actions
( updateVideoStatus / queueVideo / finalizeVideoUpload / upload append ),
the reconciler tick endpoint, and the video generation endpoint, together
with theorems about the lifecycle invariants, CAS locking, concurrency
admission control and error handling.
-/

namespace Serv2x2

/-! ## Definitions: the shallow embedding -/

/-- One Gallery sheet row, restricted to the video lifecycle columns.
Sheet cells are strings; the empty string models an unset cell. -/
structure Row where
  id : String
  videoStatus : String
  videoTaskId : String
  providerUrl : String
  videoFileId : String
  videoPrompt : String
  videoResolution : String
  videoModel : String
  sessionFolderId : String
deriving Repr, DecidableEq

/-- JavaScript truthiness of an optional string field of a request body:
absent and empty-string values are falsy. -/
def truthy : Option String → Bool
  | none => false
  | some s => !s.isEmpty

/-- First row whose id column matches (the GAS handlers scan rows from the
top and stop at the first match). -/
def findFirst : List Row → String → Option Row
  | [], _ => none
  | r :: rs, p => if r.id = p then some r else findFirst rs p

/-- Apply a mutation to the first row whose id matches, leaving all other
rows untouched. -/
def mutateFirst (f : Row → Row) : List Row → String → List Row
  | [], _ => []
  | r :: rs, p => if r.id = p then f r :: rs else r :: mutateFirst f rs p

/-- Body of an updateVideoStatus request. -/
structure UpdateReq where
  photoId : String
  status : Option String
  taskId : Option String
  providerUrl : Option String
  requireStatus : Option String
deriving Repr, DecidableEq

/-- Field writes performed by the updateVideoStatus handler once the guard
passed: each field is written only when supplied and truthy. -/
def applyUpdate (req : UpdateReq) (r : Row) : Row :=
  { r with
    videoStatus := if truthy req.status then req.status.getD r.videoStatus else r.videoStatus
    videoTaskId := if truthy req.taskId then req.taskId.getD r.videoTaskId else r.videoTaskId
    providerUrl :=
      if truthy req.providerUrl then req.providerUrl.getD r.providerUrl else r.providerUrl }

/-- JSON response of the updateVideoStatus action. -/
structure UvsResp where
  ok : Bool
  error : Option String
  current : Option String
deriving Repr, DecidableEq

def uvsOk : UvsResp := ⟨true, none, none⟩

def uvsMismatch (cur : String) : UvsResp := ⟨false, some "Status mismatch", some cur⟩

def uvsNotFound : UvsResp := ⟨false, some "Photo ID not found", none⟩

/-- The updateVideoStatus action of the GAS doPost handler: scan for the
row, apply the optional requireStatus compare-and-swap guard, then write
the supplied fields.  Runs under the script lock, hence modelled as one
atomic function on the ledger. -/
def updateVideoStatus : List Row → UpdateReq → List Row × UvsResp
  | [], _ => ([], uvsNotFound)
  | r :: rs, req =>
    if r.id = req.photoId then
      if truthy req.requireStatus && (r.videoStatus != req.requireStatus.getD "") then
        (r :: rs, uvsMismatch r.videoStatus)
      else
        (applyUpdate req r :: rs, uvsOk)
    else
      let rest := updateVideoStatus rs req
      (r :: rest.1, rest.2)

/-- Body of a queueVideo request. -/
structure QueueReq where
  photoId : String
  prompt : Option String
  resolution : Option String
  model : Option String
deriving Repr, DecidableEq

/-- Field writes performed by the queueVideo handler on the matched row:
status is forced to queued, parameters are overwritten only when supplied. -/
def applyQueue (req : QueueReq) (r : Row) : Row :=
  { r with
    videoStatus := "queued"
    videoPrompt := if truthy req.prompt then req.prompt.getD r.videoPrompt else r.videoPrompt
    videoResolution :=
      if truthy req.resolution then req.resolution.getD r.videoResolution else r.videoResolution
    videoModel := if truthy req.model then req.model.getD r.videoModel else r.videoModel }

/-- JSON response of the queueVideo action. -/
structure QvResp where
  ok : Bool
  error : Option String
deriving Repr, DecidableEq

/-- The queueVideo action of the GAS doPost handler: no status guard at
all; the first matching row is set to queued unconditionally. -/
def queueVideo : List Row → QueueReq → List Row × QvResp
  | [], _ => ([], ⟨false, some "Photo ID not found"⟩)
  | r :: rs, req =>
    if r.id = req.photoId then
      (applyQueue req r :: rs, ⟨true, none⟩)
    else
      let rest := queueVideo rs req
      (r :: rest.1, rest.2)

/-- Outcome of one provider status poll, as the tick endpoint consumes it
after its tolerant response-shape decoding: a thrown fetch error, a non-ok
HTTP response, or a decoded body with optional status string and optional
video url. -/
inductive PollOutcome where
  | netErr (msg : String)
  | httpErr
  | polled (status : Option String) (videoUrl : Option String)
deriving Repr, DecidableEq

/-- Outcome of one provider task-start request: a thrown fetch error, a
non-ok HTTP response, or a decoded body with optional task id. -/
inductive StartOutcome where
  | netErr (msg : String)
  | httpErr
  | startedWith (taskId : Option String)
deriving Repr, DecidableEq

/-- Environment of one tick invocation: the remote provider and ledger
responses, keyed by the identifier each call sends. The lock field is the
ok flag of the CAS updateVideoStatus response, Except.error modelling an
exhausted-retries throw of the fetch wrapper. -/
structure TickEnv where
  poll : String → PollOutcome
  lock : String → Except String Bool
  failUpd : String → Except String Unit
  start : String → StartOutcome
  startUpd : String → Except String Unit

/-- Externally visible side requests issued by a tick. -/
inductive Effect where
  | finalizeTrigger (photoId videoUrl sessionFolderId : String)
  | failUpdate (photoId : String)
  | startRequest (photoId resolution : String)
deriving Repr, DecidableEq

/-- The report object returned by the tick endpoint. -/
structure Report where
  processed : Nat
  started : Nat
  rescued : Nat
  errors : List String
deriving Repr, DecidableEq

/-- Body of the 200 response of the tick endpoint. -/
structure TickResp where
  report : Report
  activeCount : Nat
deriving Repr, DecidableEq

/-- ASCII lower-casing of a string (the statuses the provider reports are
ASCII words). -/
def strLower (s : String) : String := ⟨s.data.map Char.toLower⟩

/-- Status normalization in the tick poll branch: a falsy status field
defaults to processing, then lower-cased. -/
def lowerDefault (s : Option String) : String :=
  strLower (if truthy s then s.getD "" else "processing")

/-- Handle one row currently in processing: skip without a task handle,
poll the provider, and branch on the normalized status. A poll fetch
exception propagates (it is not caught row-locally); a lock-call failure is
caught and skipped; the finalize trigger fires only when the CAS lock
response carried ok true. Returns the effects and the processed-count
increment. -/
def procOne (env : TickEnv) (t : Row) : Except String (List Effect × Nat) :=
  if t.videoTaskId.isEmpty then Except.ok ([], 0)
  else
    match env.poll t.videoTaskId with
    | PollOutcome.netErr msg => Except.error msg
    | PollOutcome.httpErr => Except.ok ([], 0)
    | PollOutcome.polled st url =>
      if lowerDefault st = "succeeded" ∨ lowerDefault st = "success" then
        if truthy url then
          match env.lock t.id with
          | Except.error _ => Except.ok ([], 0)
          | Except.ok true =>
            Except.ok ([Effect.finalizeTrigger t.id (url.getD "") t.sessionFolderId], 1)
          | Except.ok false => Except.ok ([], 0)
        else Except.ok ([], 0)
      else if lowerDefault st = "failed" ∨ lowerDefault st = "error" then
        Except.ok ([Effect.failUpdate t.id], 0)
      else Except.ok ([], 0)

/-- Handle the whole processing subset in row order, keeping the effects
emitted before an aborting poll exception. -/
def procAll (env : TickEnv) : List Row → List Effect × Except String Nat
  | [] => ([], Except.ok 0)
  | t :: ts =>
    match procOne env t with
    | Except.error msg => ([], Except.error msg)
    | Except.ok (effs, n) =>
      let rest := procAll env ts
      (effs ++ rest.1,
       match rest.2 with
       | Except.error m => Except.error m
       | Except.ok k => Except.ok (n + k))

/-- Resolution coercion of the tick start branch: falsy defaults to 480p
and any value outside the allowed set is replaced by 480p. -/
def coerceRes (s : String) : String :=
  let finalRes := if s.isEmpty then "480p" else s
  if finalRes != "720p" && finalRes != "480p" then "480p" else finalRes

/-- Start one queued row: the provider start request is always attempted;
a fetch exception propagates (uncaught), a non-ok response or missing task
id is skipped, and a failing status bookkeeping write is caught, so only a
successful write counts towards started. -/
def startOne (env : TickEnv) (t : Row) : List Effect × Except String Nat :=
  let finalRes := coerceRes t.videoResolution
  ([Effect.startRequest t.id finalRes],
   match env.start t.id with
   | StartOutcome.netErr msg => Except.error msg
   | StartOutcome.httpErr => Except.ok 0
   | StartOutcome.startedWith tid =>
     if truthy tid then
       match env.startUpd t.id with
       | Except.error _ => Except.ok 0
       | Except.ok _ => Except.ok 1
     else Except.ok 0)

/-- Start the admitted prefix of the queued subset in row order. -/
def startAll (env : TickEnv) : List Row → List Effect × Except String Nat
  | [] => ([], Except.ok 0)
  | t :: ts =>
    let one := startOne env t
    match one.2 with
    | Except.error msg => (one.1, Except.error msg)
    | Except.ok n =>
      let rest := startAll env ts
      (one.1 ++ rest.1,
       match rest.2 with
       | Except.error m => Except.error m
       | Except.ok k => Except.ok (n + k))

def MAX_CONCURRENT : Nat := 3

/-- The queued rows one tick admits for starting: none unless
availableSlots = MAX_CONCURRENT - processing count is positive and the
queue is non-empty, else the first availableSlots queued rows in ledger
row order. -/
def tickToStart (items : List Row) : List Row :=
  if 0 < (MAX_CONCURRENT : Int)
        - ((items.filter (fun i => i.videoStatus == "processing")).length : Int)
      ∧ 0 < (items.filter (fun i => i.videoStatus == "queued")).length then
    (items.filter (fun i => i.videoStatus == "queued")).take
      ((MAX_CONCURRENT : Int)
        - ((items.filter (fun i => i.videoStatus == "processing")).length : Int)).toNat
  else []

/-- One invocation of the tick endpoint over the fetched gallery items:
partition into processing and queued, poll every processing row, then
start up to the available concurrency slots of queued rows. An uncaught
exception anywhere yields the 500 path, modelled as Except.error. -/
def tick (env : TickEnv) (items : List Row) : List Effect × Except String TickResp :=
  match (procAll env (items.filter (fun i => i.videoStatus == "processing"))).2 with
  | Except.error msg =>
    ((procAll env (items.filter (fun i => i.videoStatus == "processing"))).1, Except.error msg)
  | Except.ok processed =>
    match (startAll env (tickToStart items)).2 with
    | Except.error msg =>
      ((procAll env (items.filter (fun i => i.videoStatus == "processing"))).1
          ++ (startAll env (tickToStart items)).1,
       Except.error msg)
    | Except.ok started =>
      ((procAll env (items.filter (fun i => i.videoStatus == "processing"))).1
          ++ (startAll env (tickToStart items)).1,
       Except.ok ⟨⟨processed, started, 0, []⟩,
         (items.filter (fun i => i.videoStatus == "processing")).length
           + (items.filter (fun i => i.videoStatus == "queued")).length⟩)

/-- The exact CAS request the tick sends when a poll reports success:
status uploading, the provider url, and requireStatus processing. -/
def casReq (p url : String) : UpdateReq :=
  ⟨p, some "uploading", none, some url, some "processing"⟩

/-- A serialized sequence of identical CAS lock attempts against the
ledger, collecting the responses in order. -/
def iterateCAS (p url : String) : List Row → Nat → List Row × List UvsResp
  | L, 0 => (L, [])
  | L, n + 1 =>
    let first := updateVideoStatus L (casReq p url)
    let rest := iterateCAS p url first.1 n
    (rest.1, first.2 :: rest.2)

/-- Concrete tick environment for the C1 witness: the provider reports
success with an asset url for every poll and the ledger CAS always grants
the lock. -/
def envW1 : TickEnv :=
  ⟨fun _ => PollOutcome.polled (some "succeeded") (some "http://u"),
   fun _ => Except.ok true,
   fun _ => Except.ok (),
   fun _ => StartOutcome.httpErr,
   fun _ => Except.ok ()⟩

def isStartReq : Effect → Bool
  | Effect.startRequest _ _ => true
  | _ => false

/-- The provider start request the tick issues for a queued row. -/
def mkStart (t : Row) : Effect := Effect.startRequest t.id (coerceRes t.videoResolution)

/-- Five queued rows and no processing rows, for the C3 witness. -/
def itemsW3 : List Row :=
  [⟨"Q1", "queued", "", "", "", "", "", "", ""⟩,
   ⟨"Q2", "queued", "", "", "", "", "", "", ""⟩,
   ⟨"Q3", "queued", "", "", "", "", "", "", ""⟩,
   ⟨"Q4", "queued", "", "", "", "", "", "", ""⟩,
   ⟨"Q5", "queued", "", "", "", "", "", "", ""⟩]

def pollThrows : PollOutcome → Bool
  | PollOutcome.netErr _ => true
  | _ => false

def startThrows : StartOutcome → Bool
  | StartOutcome.netErr _ => true
  | _ => false

/-- Tick environment where the provider reports success but the ledger
CAS lock call fails after retries. -/
def envC6a : TickEnv :=
  ⟨fun _ => PollOutcome.polled (some "succeeded") (some "http://u"),
   fun _ => Except.error "GAS Status: 500",
   fun _ => Except.ok (),
   fun _ => StartOutcome.httpErr,
   fun _ => Except.ok ()⟩

/-- Tick environment where the status poll for task TA throws a network
error. -/
def envC6b : TickEnv :=
  ⟨fun tid =>
     if tid = "TA" then PollOutcome.netErr "fetch failed"
     else PollOutcome.polled (some "succeeded") (some "http://u"),
   fun _ => Except.ok true,
   fun _ => Except.ok (),
   fun _ => StartOutcome.httpErr,
   fun _ => Except.ok ()⟩

/-- Body of a finalizeVideoUpload request, after the handler's
normalization of the undefined/null/empty sessionFolderId strings. -/
structure FinReq where
  photoId : String
  videoUrl : String
  sessionFolderId : Option String
deriving Repr, DecidableEq

/-- Outcome of the UrlFetchApp download of the provider asset: a thrown
fetch exception or an HTTP response with a status code. -/
inductive DownloadOutcome where
  | fetchEx (msg : String)
  | http (code : Nat)
deriving Repr, DecidableEq

/-- Outcome of the blob naming, folder resolution and Drive file creation
step: a created file (with its id and the resolved folder id), the
unreachable folder-missing guard, or a thrown exception anywhere in the
step. -/
inductive SaveOutcome where
  | saved (fileId folderId : String)
  | folderMissing
  | ex (msg : String)
deriving Repr, DecidableEq

/-- External world of one finalizeVideoUpload run. -/
structure FinEnv where
  download : DownloadOutcome
  save : SaveOutcome

/-- Externally visible side actions of a finalizeVideoUpload run. -/
inductive FinEffect where
  | downloadAttempt (url : String)
  | saveAttempt
  | fileCreated (fileId : String)
deriving Repr, DecidableEq

/-- JSON response of the finalizeVideoUpload action. -/
inductive FinResp where
  | missingParams
  | skipOk (message : String)
  | fetchError (msg : String)
  | fetchFailedHTTP (code : Nat)
  | folderNotFound
  | saveError (msg : String)
  | success (fileId folderId : String)
deriving Repr, DecidableEq

def setStatus (st : String) (r : Row) : Row := { r with videoStatus := st }

def markDone (fid : String) (r : Row) : Row :=
  { r with videoStatus := "done", videoFileId := fid }

/-- The finalizeVideoUpload action of the GAS doPost handler: parameter
check, locked pre-check (skip when the row is already done or has a file
id, or is missing), download of the asset (an exception or a non-200
response returns an error without touching the row), the Drive save step
(an exception there triggers the locked compensating write of failed),
and on success the locked write of done plus the file id. The final
locked write re-scans for the row; in this sequential model the row found
by the pre-check is still present, so that re-scan cannot miss. -/
def finalizeVideoUpload (env : FinEnv) (L : List Row) (req : FinReq) :
    List Row × FinResp × List FinEffect :=
  if req.photoId.isEmpty || req.videoUrl.isEmpty then (L, FinResp.missingParams, [])
  else
    match findFirst L req.photoId with
    | none => (L, FinResp.skipOk "Photo ID not found", [])
    | some r =>
      if r.videoStatus = "done" ∨ r.videoFileId ≠ "" then
        (L, FinResp.skipOk "Already uploaded", [])
      else
        match env.download with
        | DownloadOutcome.fetchEx msg =>
          (L, FinResp.fetchError msg, [FinEffect.downloadAttempt req.videoUrl])
        | DownloadOutcome.http code =>
          if code ≠ 200 then
            (L, FinResp.fetchFailedHTTP code, [FinEffect.downloadAttempt req.videoUrl])
          else
            match env.save with
            | SaveOutcome.folderMissing =>
              (L, FinResp.folderNotFound,
               [FinEffect.downloadAttempt req.videoUrl, FinEffect.saveAttempt])
            | SaveOutcome.ex msg =>
              (mutateFirst (setStatus "failed") L req.photoId, FinResp.saveError msg,
               [FinEffect.downloadAttempt req.videoUrl, FinEffect.saveAttempt])
            | SaveOutcome.saved fid folId =>
              (mutateFirst (markDone fid) L req.photoId, FinResp.success fid folId,
               [FinEffect.downloadAttempt req.videoUrl, FinEffect.saveAttempt,
                FinEffect.fileCreated fid])

/-- Row appended by the uploadGenerated / uploadGeneratedVideo action: a
video upload lands as done with videoFileId equal to the new Drive file
id; a photo upload lands as idle with no file id. videoTaskId is never
set by this action. -/
def appendUpload (isVideo : Bool) (fileId sess : String) (L : List Row) : List Row :=
  L ++ [⟨fileId, cond isVideo "done" "idle", "", "", cond isVideo fileId "", "", "", "", sess⟩]

/-- Ledger states reachable through the subsystem's own actions: upload
appends, client queueVideo calls, the updateVideoStatus calls actually
issued by the tick and the generation endpoint (start bookkeeping with a
non-empty task id, the CAS lock to uploading with a non-empty url, the
unconditional failed write), and finalizeVideoUpload runs whose Drive save
step, when it creates a file, yields a non-empty file id. -/
inductive Reaches : List Row → Prop where
  | nil : Reaches []
  | upload (L : List Row) (isVideo : Bool) (fileId sess : String)
      (h : Reaches L) (hfid : fileId ≠ "") : Reaches (appendUpload isVideo fileId sess L)
  | queue (L : List Row) (req : QueueReq) (h : Reaches L) : Reaches (queueVideo L req).1
  | startUpd (L : List Row) (p tid : String) (h : Reaches L) (ht : tid ≠ "") :
      Reaches (updateVideoStatus L ⟨p, some "processing", some tid, none, none⟩).1
  | lockUpd (L : List Row) (p u2 : String) (h : Reaches L) (hu : u2 ≠ "") :
      Reaches (updateVideoStatus L ⟨p, some "uploading", none, some u2, some "processing"⟩).1
  | failUpd (L : List Row) (p : String) (h : Reaches L) :
      Reaches (updateVideoStatus L ⟨p, some "failed", none, none, none⟩).1
  | finalize (env : FinEnv) (L : List Row) (req : FinReq) (h : Reaches L)
      (hsave : ∀ fid folId, env.save = SaveOutcome.saved fid folId → fid ≠ "") :
      Reaches (finalizeVideoUpload env L req).1

/-- The biconditional per-row invariant exactly as the claim states it. -/
def rowIffInv (r : Row) : Bool :=
  ((!r.videoTaskId.isEmpty)
      == (r.videoStatus == "processing" || r.videoStatus == "uploading"
            || r.videoStatus == "done"))
    && ((!r.videoFileId.isEmpty) == (r.videoStatus == "done"))

def ledgerIffInv (L : List Row) : Bool := L.all rowIffInv

/-- The directions of the claimed invariant that the code does maintain. -/
def rowInvariant (r : Row) : Prop :=
  ((r.videoStatus = "processing" ∨ r.videoStatus = "uploading") → r.videoTaskId ≠ "")
  ∧ (r.videoStatus = "done" → r.videoFileId ≠ "")

/-- Char-list version of a startsWith check (kernel-reducible). -/
def leadsWith : List Char → List Char → Bool
  | [], _ => true
  | _ :: _, [] => false
  | a :: as, b :: bs => a == b && leadsWith as bs

/-- The strict video model guard of the guards module: the model must use
the seedance- family. -/
def isValidVideoModel (model : String) : Bool := leadsWith ("seedance-").data model.data

def containsFrom (pat : List Char) : List Char → Bool
  | [] => leadsWith pat []
  | c :: cs => leadsWith pat (c :: cs) || containsFrom pat cs

/-- The includes check the endpoint error handler runs on an error
message to pick 502 over 500. -/
def strContains (s pat : String) : Bool := containsFrom pat.data s.data

/-- Strict resolution validation of the generation endpoint: a falsy
value defaults to 480p and any value outside {480p, 720p} is replaced by
480p (with a logged warning). -/
def normalizeResolution (o : Option String) : String :=
  let v := if truthy o then o.getD "" else "480p"
  if v ≠ "720p" ∧ v ≠ "480p" then "480p" else v

/-- Payload of startArkVideoTask. -/
structure ArkVideoPayload where
  model : String
  prompt : String
  image_url : Option String
  duration : Option Nat
  resolution : Option String
deriving Repr, DecidableEq

/-- The provider request body startArkVideoTask posts. -/
structure ArkVideoRequest where
  model : String
  promptText : String
  imageUrl : Option String
  duration : Nat
  resolution : String
  audio : Bool
deriving Repr, DecidableEq

/-- Request construction of startArkVideoTask up to the network call
(lib/ark.ts): a falsy resolution defaults to 480p; a resolution outside
the allowed set {480p, 720p} is rejected with an error before any request
is issued; a falsy duration defaults to 5. -/
def startArkVideoTaskRequest (p : ArkVideoPayload) : Except String ArkVideoRequest :=
  let requestedRes := if truthy p.resolution then p.resolution.getD "" else "480p"
  if requestedRes ≠ "480p" ∧ requestedRes ≠ "720p" then
    Except.error ("Invalid resolution: " ++ requestedRes ++ ". Allowed: 480p, 720p.")
  else
    Except.ok ⟨p.model, p.prompt, p.image_url,
      (if p.duration.getD 0 = 0 then 5 else p.duration.getD 0), requestedRes, false⟩

/-- Body of a video generation request. -/
structure GenReq where
  prompt : Option String
  imageBase64 : Option String
  driveFileId : Option String
  sessionFolderId : Option String
  model : Option String
  resolution : Option String
deriving Repr, DecidableEq

/-- External world of one generation request: the VIDEO_MODEL and
APPS_SCRIPT_BASE_URL environment variables, the provider start outcome,
and the final outcome of the retried ledger bookkeeping write. -/
structure GenEnv where
  envVideoModel : Option String
  gasUrl : Option String
  startResult : Except String String
  gasUpdate : Except String Unit

/-- Externally visible side actions of the generation endpoint. -/
inductive GenEffect where
  | gasUpdateAttempt (photoId taskId resolution : String)
  | gasUpdateFailedLog (msg : String)
deriving Repr, DecidableEq

/-- Response of the generation endpoint: 400, 200 with the body fields
the claims mention, or the 500/502 error path. -/
inductive GenResp where
  | badRequest (msg : String)
  | ok200 (taskId status resolution : String)
  | errResp (code : Nat) (msg : String)
deriving Repr, DecidableEq

def DEFAULT_VIDEO_MODEL : String := "seedance-1-0-pro-fast-251015"

/-- Model selection of the endpoint: request model, else the environment
default, else the hard-coded seedance default. -/
def selectedModelOf (env : GenEnv) (req : GenReq) : String :=
  if truthy req.model then req.model.getD ""
  else if truthy env.envVideoModel then env.envVideoModel.getD ""
  else DEFAULT_VIDEO_MODEL

/-- The api/video/generate.ts handler after method handling: model guard,
strict resolution validation, input image resolution (a drive file id
becomes a thumbnail url sized by the resolution), provider task start,
then the best-effort retried ledger write whose failure is caught and
logged without changing the 200 response. The prompt augmentation with
resolution and duration directives does not affect any claim and is not
tracked. -/
def genHandler (env : GenEnv) (req : GenReq) : List GenEffect × GenResp :=
  if !isValidVideoModel (selectedModelOf env req) then
    ([], GenResp.badRequest ("Invalid Video Model: " ++ selectedModelOf env req))
  else
    match (if truthy req.driveFileId then
             some ("https://drive.google.com/thumbnail?id=" ++ req.driveFileId.getD ""
               ++ "&sz="
               ++ (if normalizeResolution req.resolution = "720p" then "w720" else "w480"))
           else if truthy req.imageBase64 then some (req.imageBase64.getD "")
           else none) with
    | none => ([], GenResp.badRequest "No input image provided (driveFileId required)")
    | some _ =>
      match env.startResult with
      | Except.error msg =>
        ([], GenResp.errResp (if strContains msg "Upstream" then 502 else 500) msg)
      | Except.ok taskId =>
        if truthy env.gasUrl && truthy req.driveFileId then
          match env.gasUpdate with
          | Except.ok _ =>
            ([GenEffect.gasUpdateAttempt (req.driveFileId.getD "") taskId
                (normalizeResolution req.resolution)],
             GenResp.ok200 taskId "processing" (normalizeResolution req.resolution))
          | Except.error m =>
            ([GenEffect.gasUpdateAttempt (req.driveFileId.getD "") taskId
                (normalizeResolution req.resolution),
              GenEffect.gasUpdateFailedLog m],
             GenResp.ok200 taskId "processing" (normalizeResolution req.resolution))
        else ([], GenResp.ok200 taskId "processing" (normalizeResolution req.resolution))

/-- Concrete environment for the C9 witness: the provider accepts, every
retried ledger bookkeeping write fails. -/
def envW9 : GenEnv :=
  ⟨none, some "https://gas.example", Except.ok "task-123", Except.error "GAS Status: 500"⟩

/-! ## Theorems -/

theorem updateVideoStatus_mismatch (L : List Row) (req : UpdateReq) (r : Row)
    (hfind : findFirst L req.photoId = some r)
    (hreq : truthy req.requireStatus = true)
    (hne : r.videoStatus ≠ req.requireStatus.getD "") :
    updateVideoStatus L req = (L, uvsMismatch r.videoStatus) := by
  induction L with
  | nil => simp [findFirst] at hfind
  | cons a as ih =>
    by_cases hid : a.id = req.photoId
    · rw [findFirst, if_pos hid] at hfind
      injection hfind with h
      subst h
      simp [updateVideoStatus, hid, hreq, hne]
    · rw [findFirst, if_neg hid] at hfind
      have h2 := ih hfind
      simp [updateVideoStatus, hid, h2]

theorem updateVideoStatus_match (L : List Row) (req : UpdateReq) (r : Row)
    (hfind : findFirst L req.photoId = some r)
    (heq : truthy req.requireStatus = true → r.videoStatus = req.requireStatus.getD "") :
    updateVideoStatus L req = (mutateFirst (applyUpdate req) L req.photoId, uvsOk) := by
  induction L with
  | nil => simp [findFirst] at hfind
  | cons a as ih =>
    by_cases hid : a.id = req.photoId
    · rw [findFirst, if_pos hid] at hfind
      injection hfind with h
      subst h
      have hguard : (truthy req.requireStatus && (a.videoStatus != req.requireStatus.getD "")) = false := by
        cases htr : truthy req.requireStatus with
        | false => simp
        | true => simp [heq htr]
      simp [updateVideoStatus, mutateFirst, hid, hguard]
    · rw [findFirst, if_neg hid] at hfind
      have h2 := ih hfind
      simp [updateVideoStatus, mutateFirst, hid, h2]

theorem findFirst_mutateFirst (L : List Row) (p : String) (f : Row → Row) (r : Row)
    (hfind : findFirst L p = some r) (hid : (f r).id = r.id) :
    findFirst (mutateFirst f L p) p = some (f r) := by
  induction L with
  | nil => simp [findFirst] at hfind
  | cons a as ih =>
    by_cases h : a.id = p
    · rw [findFirst, if_pos h] at hfind
      injection hfind with h2
      subst h2
      simp [mutateFirst, findFirst, h, hid]
    · rw [findFirst, if_neg h] at hfind
      simp [mutateFirst, findFirst, h, ih hfind]

theorem queueVideo_found (L : List Row) (req : QueueReq) (r : Row)
    (hfind : findFirst L req.photoId = some r) :
    queueVideo L req = (mutateFirst (applyQueue req) L req.photoId, ⟨true, none⟩) := by
  induction L with
  | nil => simp [findFirst] at hfind
  | cons a as ih =>
    by_cases hid : a.id = req.photoId
    · rw [findFirst, if_pos hid] at hfind
      injection hfind with h
      subst h
      simp [queueVideo, mutateFirst, hid]
    · rw [findFirst, if_neg hid] at hfind
      simp [queueVideo, mutateFirst, hid, ih hfind]

/-- Claim C2: for every updateVideoStatus request that supplies a (truthy)
requireStatus, a mismatch with the target row's current videoStatus yields
ok false with error Status mismatch and the current status, mutating no row;
a match applies exactly the supplied field writes to that row and returns
ok true. -/
theorem C2_updateVideoStatus_cas (L : List Row) (req : UpdateReq) (r : Row)
    (hfind : findFirst L req.photoId = some r)
    (hreq : truthy req.requireStatus = true) :
    (r.videoStatus ≠ req.requireStatus.getD "" →
      updateVideoStatus L req = (L, uvsMismatch r.videoStatus)) ∧
    (r.videoStatus = req.requireStatus.getD "" →
      updateVideoStatus L req = (mutateFirst (applyUpdate req) L req.photoId, uvsOk) ∧
      (truthy req.status = true → (applyUpdate req r).videoStatus = req.status.getD "") ∧
      (truthy req.taskId = true → (applyUpdate req r).videoTaskId = req.taskId.getD "") ∧
      (truthy req.providerUrl = true →
        (applyUpdate req r).providerUrl = req.providerUrl.getD "")) := by
  constructor
  · intro hne
    exact updateVideoStatus_mismatch L req r hfind hreq hne
  · intro heq
    refine ⟨updateVideoStatus_match L req r hfind (fun _ => heq), ?_, ?_, ?_⟩
    · intro h
      cases hs : req.status with
      | none => rw [hs] at h; simp [truthy] at h
      | some v => rw [hs] at h; simp [applyUpdate, hs, h]
    · intro h
      cases hs : req.taskId with
      | none => rw [hs] at h; simp [truthy] at h
      | some v => rw [hs] at h; simp [applyUpdate, hs, h]
    · intro h
      cases hs : req.providerUrl with
      | none => rw [hs] at h; simp [truthy] at h
      | some v => rw [hs] at h; simp [applyUpdate, hs, h]

/-- Witness for C2 at a concrete input: the CAS against a row already in
done fails with Status mismatch and leaves the ledger unchanged. -/
theorem C2_updateVideoStatus_cas_witness :
    updateVideoStatus [⟨"A", "done", "T1", "", "F1", "", "", "", ""⟩]
        ⟨"A", some "uploading", none, some "http://v", some "processing"⟩
      = ([⟨"A", "done", "T1", "", "F1", "", "", "", ""⟩], uvsMismatch "done") :=
  (C2_updateVideoStatus_cas [⟨"A", "done", "T1", "", "F1", "", "", "", ""⟩]
      ⟨"A", some "uploading", none, some "http://v", some "processing"⟩
      ⟨"A", "done", "T1", "", "F1", "", "", "", ""⟩
      (by decide) (by decide)).1 (by decide)

/-- Claim C10: queueVideo carries no status guard: whatever the current
videoStatus of the matched row (done, processing, uploading, failed, ...),
it is set to queued, supplied parameters overwrite the stored ones, and
videoTaskId and videoFileId are left untouched. -/
theorem C10_queueVideo_no_guard (L : List Row) (req : QueueReq) (r : Row)
    (hfind : findFirst L req.photoId = some r) :
    queueVideo L req = (mutateFirst (applyQueue req) L req.photoId, ⟨true, none⟩) ∧
    (applyQueue req r).videoStatus = "queued" ∧
    (applyQueue req r).videoTaskId = r.videoTaskId ∧
    (applyQueue req r).videoFileId = r.videoFileId ∧
    (truthy req.prompt = true → (applyQueue req r).videoPrompt = req.prompt.getD "") ∧
    (truthy req.resolution = true →
      (applyQueue req r).videoResolution = req.resolution.getD "") ∧
    (truthy req.model = true → (applyQueue req r).videoModel = req.model.getD "") := by
  refine ⟨queueVideo_found L req r hfind, rfl, rfl, rfl, ?_, ?_, ?_⟩
  · intro h
    cases hs : req.prompt with
    | none => rw [hs] at h; simp [truthy] at h
    | some v => rw [hs] at h; simp [applyQueue, hs, h]
  · intro h
    cases hs : req.resolution with
    | none => rw [hs] at h; simp [truthy] at h
    | some v => rw [hs] at h; simp [applyQueue, hs, h]
  · intro h
    cases hs : req.model with
    | none => rw [hs] at h; simp [truthy] at h
    | some v => rw [hs] at h; simp [applyQueue, hs, h]

/-- Witness for C10 at a concrete input: a row already done, with a stored
file id, is silently re-queued while keeping videoTaskId and videoFileId. -/
theorem C10_queueVideo_no_guard_witness :
    queueVideo [⟨"A", "done", "T1", "", "F1", "old", "480p", "m", ""⟩]
        ⟨"A", some "new prompt", none, none⟩
      = (mutateFirst (applyQueue ⟨"A", some "new prompt", none, none⟩)
          [⟨"A", "done", "T1", "", "F1", "old", "480p", "m", ""⟩] "A",
         ⟨true, none⟩) :=
  (C10_queueVideo_no_guard [⟨"A", "done", "T1", "", "F1", "old", "480p", "m", ""⟩]
      ⟨"A", some "new prompt", none, none⟩
      ⟨"A", "done", "T1", "", "F1", "old", "480p", "m", ""⟩ (by decide)).1

theorem iterateCAS_stuck (p url : String) (L : List Row) (r : Row) (n : Nat)
    (hfind : findFirst L p = some r) (hst : r.videoStatus = "uploading") :
    iterateCAS p url L n = (L, List.replicate n (uvsMismatch "uploading")) := by
  induction n with
  | zero => simp [iterateCAS]
  | succ k ih =>
    have hm : updateVideoStatus L (casReq p url) = (L, uvsMismatch r.videoStatus) :=
      updateVideoStatus_mismatch L (casReq p url) r hfind rfl
        (by
          show r.videoStatus ≠ "processing"
          rw [hst]
          decide)
    simp [iterateCAS, hm, hst, ih, List.replicate_succ]

theorem iterateCAS_first_wins (p url : String) (L : List Row) (r : Row) (n : Nat)
    (hfind : findFirst L p = some r) (hst : r.videoStatus = "processing") :
    (iterateCAS p url L (n + 1)).2 = uvsOk :: List.replicate n (uvsMismatch "uploading") := by
  have h1 : updateVideoStatus L (casReq p url)
      = (mutateFirst (applyUpdate (casReq p url)) L p, uvsOk) :=
    updateVideoStatus_match L (casReq p url) r hfind (fun _ => hst)
  have hr2 : findFirst (mutateFirst (applyUpdate (casReq p url)) L p) p
      = some (applyUpdate (casReq p url) r) :=
    findFirst_mutateFirst L p _ r hfind rfl
  have hst2 : (applyUpdate (casReq p url) r).videoStatus = "uploading" := rfl
  have h2 := iterateCAS_stuck p url _ (applyUpdate (casReq p url) r) n hr2 hst2
  simp [iterateCAS, h1, h2]

theorem procOne_trigger (env : TickEnv) (t : Row) (effs : List Effect) (n : Nat)
    (p u s : String)
    (h : procOne env t = Except.ok (effs, n))
    (hmem : Effect.finalizeTrigger p u s ∈ effs) :
    env.lock p = Except.ok true := by
  unfold procOne at h
  split at h
  · simp_all
  · split at h
    · simp_all
    · simp_all
    · split at h
      · split at h
        · split at h
          · simp_all
          · simp only [Except.ok.injEq, Prod.mk.injEq] at h
            obtain ⟨h1, h2⟩ := h
            subst h1
            simp only [List.mem_singleton] at hmem
            injection hmem with hp hu hs2
            subst hp
            assumption
          · simp_all
        · simp_all
      · split at h
        · simp only [Except.ok.injEq, Prod.mk.injEq] at h
          obtain ⟨h1, h2⟩ := h
          subst h1
          simp at hmem
        · simp_all

theorem procAll_trigger (env : TickEnv) (ts : List Row) (p u s : String)
    (hmem : Effect.finalizeTrigger p u s ∈ (procAll env ts).1) :
    env.lock p = Except.ok true := by
  induction ts with
  | nil => simp [procAll] at hmem
  | cons t ts ih =>
    unfold procAll at hmem
    cases hpo : procOne env t with
    | error msg => rw [hpo] at hmem; simp at hmem
    | ok pair =>
      obtain ⟨effs, k⟩ := pair
      rw [hpo] at hmem
      simp only [List.mem_append] at hmem
      rcases hmem with hmem | hmem
      · exact procOne_trigger env t effs k p u s hpo hmem
      · exact ih hmem

theorem startAll_no_trigger (env : TickEnv) (ts : List Row) (p u s : String) :
    Effect.finalizeTrigger p u s ∉ (startAll env ts).1 := by
  induction ts with
  | nil => simp [startAll]
  | cons t ts ih =>
    intro hmem
    simp only [startAll] at hmem
    rcases hse : (startOne env t).2 with msg | k <;> rw [hse] at hmem
    · have h0 : (startOne env t).1 = [Effect.startRequest t.id (coerceRes t.videoResolution)] := rfl
      rw [h0] at hmem
      simp at hmem
    · have h1 : (startOne env t).1 = [Effect.startRequest t.id (coerceRes t.videoResolution)] := rfl
      rw [h1] at hmem
      simp only [List.mem_append, List.mem_singleton] at hmem
      rcases hmem with hmem | hmem
      · exact Effect.noConfusion hmem
      · exact ih hmem

theorem tick_effects_cases (env : TickEnv) (items : List Row) :
    (tick env items).1
        = (procAll env (items.filter (fun i => i.videoStatus == "processing"))).1
    ∨ (tick env items).1
        = (procAll env (items.filter (fun i => i.videoStatus == "processing"))).1
            ++ (startAll env (tickToStart items)).1 := by
  unfold tick
  rcases h1 : (procAll env (items.filter (fun i => i.videoStatus == "processing"))).2
      with msg | processed
  · left
    rfl
  · rcases h2 : (startAll env (tickToStart items)).2 with msg | started
    · right
      rfl
    · right
      rfl

theorem tick_trigger (env : TickEnv) (items : List Row) (p u s : String)
    (hmem : Effect.finalizeTrigger p u s ∈ (tick env items).1) :
    env.lock p = Except.ok true := by
  rcases tick_effects_cases env items with hstep | hstep <;> rw [hstep] at hmem
  · exact procAll_trigger env _ p u s hmem
  · rcases List.mem_append.mp hmem with hmem2 | hmem2
    · exact procAll_trigger env _ p u s hmem2
    · exact absurd hmem2 (startAll_no_trigger env _ p u s)

/-- Claim C1: for a row currently in processing, of any serialized
sequence of CAS lock calls (requireStatus processing, status uploading)
exactly the first returns ok true and every later call returns ok false
with Status mismatch; and a tick fires the finalizeVideoUpload trigger for
a row only when its CAS lock call returned ok true, so a succeeded row is
never finalized twice. -/
theorem C1_first_cas_wins_finalize_gated
    (L : List Row) (p url : String) (r : Row) (n : Nat)
    (hfind : findFirst L p = some r) (hst : r.videoStatus = "processing")
    (env : TickEnv) (items : List Row) (q u s : String)
    (htrig : Effect.finalizeTrigger q u s ∈ (tick env items).1) :
    (iterateCAS p url L (n + 1)).2 = uvsOk :: List.replicate n (uvsMismatch "uploading")
    ∧ env.lock q = Except.ok true :=
  ⟨iterateCAS_first_wins p url L r n hfind hst,
   tick_trigger env items q u s htrig⟩

/-- Witness for C1 at a concrete input: three serialized CAS calls on one
processing row give ok then two mismatches, and the concrete tick that
fired a finalize trigger had its lock call answered ok true. -/
theorem C1_first_cas_wins_finalize_gated_witness :
    (iterateCAS "A" "http://u" [⟨"A", "processing", "TA", "", "", "", "", "", ""⟩] 3).2
        = uvsOk :: List.replicate 2 (uvsMismatch "uploading")
    ∧ envW1.lock "A" = Except.ok true :=
  C1_first_cas_wins_finalize_gated
    [⟨"A", "processing", "TA", "", "", "", "", "", ""⟩] "A" "http://u"
    ⟨"A", "processing", "TA", "", "", "", "", "", ""⟩ 2 (by decide) rfl
    envW1 [⟨"A", "processing", "TA", "", "", "", "", "", ""⟩] "A" "http://u" ""
    (by decide)

theorem procOne_no_start (env : TickEnv) (t : Row) (effs : List Effect) (n : Nat)
    (h : procOne env t = Except.ok (effs, n)) (e : Effect) (hmem : e ∈ effs) :
    isStartReq e = false := by
  unfold procOne at h
  split at h
  · simp_all
  · split at h
    · simp_all
    · simp_all
    · split at h
      · split at h
        · split at h
          · simp_all
          · simp only [Except.ok.injEq, Prod.mk.injEq] at h
            obtain ⟨h1, h2⟩ := h
            subst h1
            simp only [List.mem_singleton] at hmem
            subst hmem
            rfl
          · simp_all
        · simp_all
      · split at h
        · simp only [Except.ok.injEq, Prod.mk.injEq] at h
          obtain ⟨h1, h2⟩ := h
          subst h1
          simp only [List.mem_singleton] at hmem
          subst hmem
          rfl
        · simp_all

theorem procAll_no_start (env : TickEnv) (ts : List Row) (e : Effect)
    (hmem : e ∈ (procAll env ts).1) : isStartReq e = false := by
  induction ts with
  | nil => simp [procAll] at hmem
  | cons t ts ih =>
    unfold procAll at hmem
    cases hpo : procOne env t with
    | error msg => rw [hpo] at hmem; simp at hmem
    | ok pair =>
      obtain ⟨effs, k⟩ := pair
      rw [hpo] at hmem
      simp only [List.mem_append] at hmem
      rcases hmem with hmem | hmem
      · exact procOne_no_start env t effs k hpo e hmem
      · exact ih hmem

theorem startAll_ok_effects (env : TickEnv) (ts : List Row) :
    ∀ n : Nat, (startAll env ts).2 = Except.ok n → (startAll env ts).1 = ts.map mkStart := by
  induction ts with
  | nil => intro n _; simp [startAll]
  | cons t ts ih =>
    intro n h
    have hone : (startOne env t).1 = [mkStart t] := rfl
    simp only [startAll] at h ⊢
    rcases hse : (startOne env t).2 with msg | k
    · rw [hse] at h
      simp at h
    · rcases hsa : (startAll env ts).2 with m | j
      · rw [hse, hsa] at h
        simp at h
      · simp [hone, ih j hsa]

theorem tick_ok_elim (env : TickEnv) (items : List Row) (resp : TickResp)
    (h : (tick env items).2 = Except.ok resp) :
    (tick env items).1
      = (procAll env (items.filter (fun i => i.videoStatus == "processing"))).1
          ++ (startAll env (tickToStart items)).1
    ∧ ∃ n, (startAll env (tickToStart items)).2 = Except.ok n := by
  unfold tick at h ⊢
  rcases h1 : (procAll env (items.filter (fun i => i.videoStatus == "processing"))).2
      with msg | processed
  · rw [h1] at h
    simp at h
  · rcases h2 : (startAll env (tickToStart items)).2 with msg | started
    · rw [h1, h2] at h
      simp at h
    · exact ⟨rfl, started, rfl⟩

theorem tickToStart_take (items : List Row) :
    tickToStart items
      = (items.filter (fun i => i.videoStatus == "queued")).take
          (MAX_CONCURRENT - (items.filter (fun i => i.videoStatus == "processing")).length) := by
  unfold tickToStart
  have h3 : MAX_CONCURRENT = 3 := rfl
  set p := (items.filter (fun i => i.videoStatus == "processing")).length with hp
  set q := (items.filter (fun i => i.videoStatus == "queued")).length with hq
  by_cases hc : 0 < (MAX_CONCURRENT : Int) - (p : Int) ∧ 0 < q
  · rw [if_pos hc]
    congr 1
    rw [h3] at hc ⊢
    omega
  · rw [if_neg hc]
    rcases Decidable.not_and_iff_or_not.mp hc with hc1 | hc2
    · have hple : MAX_CONCURRENT - p = 0 := by
        rw [h3] at hc1 ⊢
        omega
      rw [hple, List.take_zero]
    · have hq0 : items.filter (fun i => i.videoStatus == "queued") = [] := by
        refine List.length_eq_zero.mp ?_
        rw [← hq]
        omega
      rw [hq0, List.take_nil]

/-- Claim C3: a tick that runs to completion attempts a provider start
request for exactly the first min(max(3 - p, 0), q) queued rows in ledger
row order, where p is the processing count and q the queued count. -/
theorem C3_admission_control (env : TickEnv) (items : List Row) (resp : TickResp)
    (h : (tick env items).2 = Except.ok resp) :
    ((tick env items).1.filter isStartReq)
      = ((items.filter (fun i => i.videoStatus == "queued")).take
          (MAX_CONCURRENT - (items.filter (fun i => i.videoStatus == "processing")).length)).map
            mkStart
    ∧ ((tick env items).1.filter isStartReq).length
      = min (MAX_CONCURRENT - (items.filter (fun i => i.videoStatus == "processing")).length)
          (items.filter (fun i => i.videoStatus == "queued")).length := by
  obtain ⟨heq, n, hok⟩ := tick_ok_elim env items resp h
  have hfilter1 :
      ((procAll env (items.filter (fun i => i.videoStatus == "processing"))).1.filter
        isStartReq) = [] :=
    List.filter_eq_nil_iff.mpr (fun e hmem => by
      simp [procAll_no_start env _ e hmem])
  have heff := startAll_ok_effects env _ n hok
  have hmain :
      ((tick env items).1.filter isStartReq)
        = ((items.filter (fun i => i.videoStatus == "queued")).take
            (MAX_CONCURRENT - (items.filter (fun i => i.videoStatus == "processing")).length)).map
              mkStart := by
    rw [heq, List.filter_append, hfilter1, List.nil_append, heff, tickToStart_take]
    refine List.filter_eq_self.mpr (fun e hmem => ?_)
    rcases List.mem_map.mp hmem with ⟨t, _, rfl⟩
    rfl
  refine ⟨hmain, ?_⟩
  rw [hmain, List.length_map, List.length_take]

/-- Witness for C3 at a concrete input: five queued rows and no processing
rows; the completed tick attempts exactly min(3, 5) = 3 start requests, for
the first three queued rows in ledger order. -/
theorem C3_admission_control_witness :
    ((tick envW1 itemsW3).1.filter isStartReq)
      = ((itemsW3.filter (fun i => i.videoStatus == "queued")).take
          (MAX_CONCURRENT - (itemsW3.filter (fun i => i.videoStatus == "processing")).length)).map
            mkStart
    ∧ ((tick envW1 itemsW3).1.filter isStartReq).length
      = min (MAX_CONCURRENT - (itemsW3.filter (fun i => i.videoStatus == "processing")).length)
          (itemsW3.filter (fun i => i.videoStatus == "queued")).length :=
  C3_admission_control envW1 itemsW3 ⟨⟨0, 0, 0, []⟩, 5⟩ rfl

/-- Counterexample to C6 at concrete inputs. First: a ledger CAS failure
for the only processing row is caught, but the completed tick reports
errors = [] — the error message is never collected into the report's
errors list. Second: a provider poll network exception for row A is not
caught row-locally; the whole tick aborts with a 500 and row B is never
handled (no effects at all). -/
theorem C6_counterexample :
    tick envC6a [⟨"A", "processing", "TA", "", "", "", "", "", ""⟩]
      = ([], Except.ok ⟨⟨0, 0, 0, []⟩, 1⟩)
    ∧ tick envC6b
        [⟨"A", "processing", "TA", "", "", "", "", "", ""⟩,
         ⟨"B", "processing", "TB", "", "", "", "", "", ""⟩]
      = ([], Except.error "fetch failed") :=
  ⟨rfl, rfl⟩

theorem procOne_ok (env : TickEnv) (t : Row)
    (h : pollThrows (env.poll t.videoTaskId) = false) :
    ∃ pr, procOne env t = Except.ok pr := by
  unfold procOne
  split
  · exact ⟨_, rfl⟩
  · rcases hp : env.poll t.videoTaskId with msg | _ | ⟨st, url⟩
    · rw [hp] at h
      simp [pollThrows] at h
    · exact ⟨_, rfl⟩
    · by_cases h1 : lowerDefault st = "succeeded" ∨ lowerDefault st = "success"
      · by_cases h2 : truthy url
        · rcases hl : env.lock t.id with msg | b
          · exact ⟨([], 0), by simp [h1, h2, hl]⟩
          · cases b
            · exact ⟨([], 0), by simp [h1, h2, hl]⟩
            · exact ⟨([Effect.finalizeTrigger t.id (url.getD "") t.sessionFolderId], 1),
                by simp [h1, h2, hl]⟩
        · exact ⟨([], 0), by simp [h1, h2]⟩
      · by_cases h3 : lowerDefault st = "failed" ∨ lowerDefault st = "error"
        · exact ⟨([Effect.failUpdate t.id], 0), by simp [h1, h3]⟩
        · exact ⟨([], 0), by simp [h1, h3]⟩

theorem procAll_ok (env : TickEnv) (ts : List Row)
    (h : ∀ t ∈ ts, pollThrows (env.poll t.videoTaskId) = false) :
    ∃ n, (procAll env ts).2 = Except.ok n := by
  induction ts with
  | nil => exact ⟨0, rfl⟩
  | cons t ts ih =>
    obtain ⟨⟨effs, k⟩, hpr⟩ := procOne_ok env t (h t (List.mem_cons_self t ts))
    obtain ⟨n, hn⟩ := ih (fun x hx => h x (List.mem_cons_of_mem t hx))
    refine ⟨k + n, ?_⟩
    unfold procAll
    rw [hpr]
    simp [hn]

theorem startOne_ok (env : TickEnv) (t : Row)
    (h : startThrows (env.start t.id) = false) :
    ∃ n, (startOne env t).2 = Except.ok n := by
  unfold startOne
  rcases hs : env.start t.id with msg | _ | tid
  · rw [hs] at h
    simp [startThrows] at h
  · exact ⟨0, rfl⟩
  · by_cases ht : truthy tid
    · rcases hu : env.startUpd t.id with m | u
      · exact ⟨0, by simp [ht, hu]⟩
      · exact ⟨1, by simp [ht, hu]⟩
    · exact ⟨0, by simp [ht]⟩

theorem startAll_ok (env : TickEnv) (ts : List Row)
    (h : ∀ t ∈ ts, startThrows (env.start t.id) = false) :
    ∃ n, (startAll env ts).2 = Except.ok n := by
  induction ts with
  | nil => exact ⟨0, rfl⟩
  | cons t ts ih =>
    obtain ⟨k, hk⟩ := startOne_ok env t (h t (List.mem_cons_self t ts))
    obtain ⟨n, hn⟩ := ih (fun x hx => h x (List.mem_cons_of_mem t hx))
    refine ⟨k + n, ?_⟩
    simp only [startAll]
    rw [hk]
    simp [hn]

/-- Claim C6 amended: a ledger call failure for one row (the CAS lock, the
failed-status write, or the start bookkeeping write) is caught and never
aborts the tick, but its message is only logged: the completed tick's
report always has an empty errors list. A provider poll or start fetch
exception, in contrast, is not caught row-locally and aborts the whole
tick. -/
theorem C6_lock_failures_isolated_but_not_reported (env : TickEnv) (items : List Row) :
    (∀ resp, (tick env items).2 = Except.ok resp → resp.report.errors = [])
    ∧ ((∀ t ∈ items, pollThrows (env.poll t.videoTaskId) = false
          ∧ startThrows (env.start t.id) = false)
        → ∃ resp, (tick env items).2 = Except.ok resp) := by
  constructor
  · intro resp hok
    unfold tick at hok
    rcases h1 : (procAll env (items.filter (fun i => i.videoStatus == "processing"))).2
        with msg | processed
    · rw [h1] at hok
      simp at hok
    · rcases h2 : (startAll env (tickToStart items)).2 with msg | started
      · rw [h1, h2] at hok
        simp at hok
      · rw [h1, h2] at hok
        simp only [Except.ok.injEq] at hok
        subst hok
        rfl
  · intro h
    obtain ⟨np, hp⟩ := procAll_ok env (items.filter (fun i => i.videoStatus == "processing"))
      (fun t ht => (h t (List.mem_of_mem_filter ht)).1)
    obtain ⟨ns, hs⟩ := startAll_ok env (tickToStart items)
      (fun t ht => (h t (List.mem_of_mem_filter
        (List.take_subset _ _ (by rwa [tickToStart_take] at ht)))).2)
    refine ⟨⟨⟨np, ns, 0, []⟩,
      (items.filter (fun i => i.videoStatus == "processing")).length
        + (items.filter (fun i => i.videoStatus == "queued")).length⟩, ?_⟩
    unfold tick
    rw [hp, hs]

/-- Witness for C6 amended at a concrete input: the five-queued-row tick
under an environment with no fetch exceptions completes, and a completed
tick response always carries an empty errors list. -/
theorem C6_lock_failures_isolated_but_not_reported_witness :
    ((⟨⟨0, 0, 0, []⟩, (5 : Nat)⟩ : TickResp).report.errors = [])
    ∧ (∃ resp, (tick envW1 itemsW3).2 = Except.ok resp) :=
  ⟨(C6_lock_failures_isolated_but_not_reported envW1 itemsW3).1 ⟨⟨0, 0, 0, []⟩, 5⟩ rfl,
   (C6_lock_failures_isolated_but_not_reported envW1 itemsW3).2 (by decide)⟩

theorem truthy_some (s : String) (h : s ≠ "") : truthy (some s) = true := by
  have h2 : s.isEmpty = false := by
    cases he : s.isEmpty
    · rfl
    · exact absurd ((String.isEmpty_iff s).mp he) h
  simp [truthy, h2]

theorem finalize_success_inv (env : FinEnv) (L : List Row) (req : FinReq) (L2 : List Row)
    (fid folId : String) (effs : List FinEffect)
    (h : finalizeVideoUpload env L req = (L2, FinResp.success fid folId, effs)) :
    L2 = mutateFirst (markDone fid) L req.photoId := by
  unfold finalizeVideoUpload at h
  split at h
  · simp at h
  · split at h
    · simp at h
    · split at h
      · simp at h
      · split at h
        · simp at h
        · split at h
          · simp at h
          · split at h
            · simp at h
            · simp at h
            · simp only [Prod.mk.injEq, FinResp.success.injEq] at h
              obtain ⟨hL2, ⟨hfid, hfol⟩, heffs⟩ := h
              subst hfid
              exact hL2.symm

/-- Claim C5: a finalizeVideoUpload request whose target row is already
done or carries a file id returns ok true Already uploaded immediately,
with the ledger unchanged and no download or file-creation effect; hence
a second call after a successful finalization is such a no-op and creates
no second durable asset. -/
theorem C5_finalize_already_uploaded (env env2 : FinEnv) (L : List Row) (req : FinReq)
    (r : Row)
    (hp : req.photoId.isEmpty = false) (hu : req.videoUrl.isEmpty = false)
    (hfind : findFirst L req.photoId = some r) :
    (r.videoStatus = "done" ∨ r.videoFileId ≠ "" →
      finalizeVideoUpload env L req = (L, FinResp.skipOk "Already uploaded", []))
    ∧ (∀ L2 fid folId effs,
        finalizeVideoUpload env L req = (L2, FinResp.success fid folId, effs) →
        finalizeVideoUpload env2 L2 req = (L2, FinResp.skipOk "Already uploaded", [])) := by
  constructor
  · intro hdone
    simp [finalizeVideoUpload, hp, hu, hfind, hdone]
  · intro L2 fid folId effs hsuc
    have hL2 : L2 = mutateFirst (markDone fid) L req.photoId :=
      finalize_success_inv env L req L2 fid folId effs hsuc
    subst hL2
    have hfind2 : findFirst (mutateFirst (markDone fid) L req.photoId) req.photoId
        = some (markDone fid r) :=
      findFirst_mutateFirst L req.photoId _ r hfind rfl
    simp [finalizeVideoUpload, hp, hu, hfind2, markDone]

/-- Witness for C5 at a concrete input: the row is already done with a
stored file id; the call is a pure no-op even though the environment
would let a download and save succeed. -/
theorem C5_finalize_already_uploaded_witness :
    finalizeVideoUpload ⟨DownloadOutcome.http 200, SaveOutcome.saved "F2" "FOL"⟩
        [⟨"A", "done", "T1", "", "F1", "", "", "", ""⟩] ⟨"A", "http://v", none⟩
      = ([⟨"A", "done", "T1", "", "F1", "", "", "", ""⟩],
         FinResp.skipOk "Already uploaded", []) :=
  (C5_finalize_already_uploaded ⟨DownloadOutcome.http 200, SaveOutcome.saved "F2" "FOL"⟩
      ⟨DownloadOutcome.http 200, SaveOutcome.saved "F2" "FOL"⟩
      [⟨"A", "done", "T1", "", "F1", "", "", "", ""⟩] ⟨"A", "http://v", none⟩
      ⟨"A", "done", "T1", "", "F1", "", "", "", ""⟩
      rfl rfl (by decide)).1 (Or.inl rfl)

/-- Counterexample to C7 at a concrete input: a non-200 download response
for a row that passed the pre-check (status uploading) returns an error
and leaves the row in uploading — no best-effort transition to failed is
attempted, contrary to the claim. -/
theorem C7_counterexample :
    finalizeVideoUpload ⟨DownloadOutcome.http 404, SaveOutcome.saved "F2" "FOL"⟩
        [⟨"A", "uploading", "T1", "http://v", "", "", "", "", ""⟩] ⟨"A", "http://v", none⟩
      = ([⟨"A", "uploading", "T1", "http://v", "", "", "", "", ""⟩],
         FinResp.fetchFailedHTTP 404, [FinEffect.downloadAttempt "http://v"]) := rfl

/-- Claim C7 amended: after a passed pre-check, only an exception thrown
in the blob/Drive save step triggers the best-effort compensating write
of failed; a download fetch exception or a non-200 download response
returns an error response without mutating any row, leaving the row in
uploading. -/
theorem C7_compensation_only_on_save_exception (env : FinEnv) (L : List Row) (req : FinReq)
    (r : Row)
    (hp : req.photoId.isEmpty = false) (hu : req.videoUrl.isEmpty = false)
    (hfind : findFirst L req.photoId = some r)
    (hpre : ¬(r.videoStatus = "done" ∨ r.videoFileId ≠ "")) :
    (∀ msg, env.download = DownloadOutcome.fetchEx msg →
      finalizeVideoUpload env L req
        = (L, FinResp.fetchError msg, [FinEffect.downloadAttempt req.videoUrl]))
    ∧ (∀ code, env.download = DownloadOutcome.http code → code ≠ 200 →
      finalizeVideoUpload env L req
        = (L, FinResp.fetchFailedHTTP code, [FinEffect.downloadAttempt req.videoUrl]))
    ∧ (∀ msg, env.download = DownloadOutcome.http 200 → env.save = SaveOutcome.ex msg →
      finalizeVideoUpload env L req
        = (mutateFirst (setStatus "failed") L req.photoId, FinResp.saveError msg,
           [FinEffect.downloadAttempt req.videoUrl, FinEffect.saveAttempt])) := by
  refine ⟨?_, ?_, ?_⟩
  · intro msg hd
    simp [finalizeVideoUpload, hp, hu, hfind, hpre, hd]
  · intro code hd hc
    simp [finalizeVideoUpload, hp, hu, hfind, hpre, hd, hc]
  · intro msg hd hs
    simp [finalizeVideoUpload, hp, hu, hfind, hpre, hd, hs]

/-- Witness for C7 amended at a concrete input: a Drive save exception
after a 200 download does flip the uploading row to failed. -/
theorem C7_compensation_only_on_save_exception_witness :
    finalizeVideoUpload ⟨DownloadOutcome.http 200, SaveOutcome.ex "Drive quota"⟩
        [⟨"A", "uploading", "T1", "http://v", "", "", "", "", ""⟩] ⟨"A", "http://v", none⟩
      = (mutateFirst (setStatus "failed")
           [⟨"A", "uploading", "T1", "http://v", "", "", "", "", ""⟩] "A",
         FinResp.saveError "Drive quota",
         [FinEffect.downloadAttempt "http://v", FinEffect.saveAttempt]) :=
  (C7_compensation_only_on_save_exception
      ⟨DownloadOutcome.http 200, SaveOutcome.ex "Drive quota"⟩
      [⟨"A", "uploading", "T1", "http://v", "", "", "", "", ""⟩] ⟨"A", "http://v", none⟩
      ⟨"A", "uploading", "T1", "http://v", "", "", "", "", ""⟩
      rfl rfl (by decide) (by decide)).2.2 "Drive quota" rfl rfl

/-- Counterexample to C4 at a concrete input: a single
uploadGeneratedVideo action reaches a ledger whose only row is done with
a file id but an empty videoTaskId, so the claimed biconditional
(videoTaskId non-empty iff status in processing/uploading/done) fails. -/
theorem C4_counterexample :
    Reaches [⟨"F1", "done", "", "", "F1", "", "", "", ""⟩]
    ∧ ledgerIffInv [⟨"F1", "done", "", "", "F1", "", "", "", ""⟩] = false :=
  ⟨Reaches.upload [] true "F1" "" Reaches.nil (by decide), by decide⟩

theorem mem_mutateFirst (f : Row → Row) (L : List Row) (p : String) (r2 : Row)
    (hmem : r2 ∈ mutateFirst f L p) : r2 ∈ L ∨ ∃ r, r ∈ L ∧ r2 = f r := by
  induction L with
  | nil => simp [mutateFirst] at hmem
  | cons a as ih =>
    unfold mutateFirst at hmem
    by_cases hid : a.id = p
    · rw [if_pos hid] at hmem
      rcases List.mem_cons.mp hmem with h1 | h1
      · exact Or.inr ⟨a, List.mem_cons_self a as, h1⟩
      · exact Or.inl (List.mem_cons_of_mem a h1)
    · rw [if_neg hid] at hmem
      rcases List.mem_cons.mp hmem with h1 | h1
      · exact Or.inl (h1 ▸ List.mem_cons_self a as)
      · rcases ih h1 with h2 | ⟨r, hr, h3⟩
        · exact Or.inl (List.mem_cons_of_mem a h2)
        · exact Or.inr ⟨r, List.mem_cons_of_mem a hr, h3⟩

theorem updateVideoStatus_fst_cons (a : Row) (as : List Row) (req : UpdateReq) :
    (updateVideoStatus (a :: as) req).1
      = if a.id = req.photoId then
          (if truthy req.requireStatus && (a.videoStatus != req.requireStatus.getD "") then
            a :: as
          else applyUpdate req a :: as)
        else a :: (updateVideoStatus as req).1 := by
  by_cases hid : a.id = req.photoId
  · by_cases hg : (truthy req.requireStatus && (a.videoStatus != req.requireStatus.getD "")) = true
    · simp [updateVideoStatus, hid, hg]
    · simp [updateVideoStatus, hid, hg]
  · simp [updateVideoStatus, hid]

theorem mem_updateVideoStatus (L : List Row) (req : UpdateReq) (r2 : Row)
    (hmem : r2 ∈ (updateVideoStatus L req).1) :
    r2 ∈ L ∨ ∃ r, r ∈ L ∧ r2 = applyUpdate req r
      ∧ (truthy req.requireStatus = true → r.videoStatus = req.requireStatus.getD "") := by
  induction L with
  | nil => simp [updateVideoStatus] at hmem
  | cons a as ih =>
    rw [updateVideoStatus_fst_cons] at hmem
    by_cases hid : a.id = req.photoId
    · rw [if_pos hid] at hmem
      by_cases hg : (truthy req.requireStatus && (a.videoStatus != req.requireStatus.getD "")) = true
      · rw [if_pos hg] at hmem
        exact Or.inl hmem
      · rw [if_neg hg] at hmem
        rcases List.mem_cons.mp hmem with h1 | h1
        · refine Or.inr ⟨a, List.mem_cons_self a as, h1, fun htr => ?_⟩
          simp [htr] at hg
          exact hg
        · exact Or.inl (List.mem_cons_of_mem a h1)
    · rw [if_neg hid] at hmem
      rcases List.mem_cons.mp hmem with h1 | h1
      · exact Or.inl (h1 ▸ List.mem_cons_self a as)
      · rcases ih h1 with h2 | ⟨r, hr, h3, h4⟩
        · exact Or.inl (List.mem_cons_of_mem a h2)
        · exact Or.inr ⟨r, List.mem_cons_of_mem a hr, h3, h4⟩

theorem queueVideo_fst_cons (a : Row) (as : List Row) (req : QueueReq) :
    (queueVideo (a :: as) req).1
      = if a.id = req.photoId then applyQueue req a :: as
        else a :: (queueVideo as req).1 := by
  by_cases hid : a.id = req.photoId
  · simp [queueVideo, hid]
  · simp [queueVideo, hid]

theorem mem_queueVideo (L : List Row) (req : QueueReq) (r2 : Row)
    (hmem : r2 ∈ (queueVideo L req).1) :
    r2 ∈ L ∨ ∃ r, r ∈ L ∧ r2 = applyQueue req r := by
  induction L with
  | nil => simp [queueVideo] at hmem
  | cons a as ih =>
    rw [queueVideo_fst_cons] at hmem
    by_cases hid : a.id = req.photoId
    · rw [if_pos hid] at hmem
      rcases List.mem_cons.mp hmem with h1 | h1
      · exact Or.inr ⟨a, List.mem_cons_self a as, h1⟩
      · exact Or.inl (List.mem_cons_of_mem a h1)
    · rw [if_neg hid] at hmem
      rcases List.mem_cons.mp hmem with h1 | h1
      · exact Or.inl (h1 ▸ List.mem_cons_self a as)
      · rcases ih h1 with h2 | ⟨r, hr, h3⟩
        · exact Or.inl (List.mem_cons_of_mem a h2)
        · exact Or.inr ⟨r, List.mem_cons_of_mem a hr, h3⟩

theorem finalize_fst (env : FinEnv) (L : List Row) (req : FinReq) :
    (finalizeVideoUpload env L req).1 = L
    ∨ (finalizeVideoUpload env L req).1 = mutateFirst (setStatus "failed") L req.photoId
    ∨ ∃ fid folId, env.save = SaveOutcome.saved fid folId
        ∧ (finalizeVideoUpload env L req).1 = mutateFirst (markDone fid) L req.photoId := by
  unfold finalizeVideoUpload
  split
  · exact Or.inl rfl
  · split
    · exact Or.inl rfl
    · split
      · exact Or.inl rfl
      · split
        · exact Or.inl rfl
        · split
          · exact Or.inl rfl
          · split
            · exact Or.inl rfl
            · exact Or.inr (Or.inl rfl)
            · rename_i fid folId hsave
              exact Or.inr (Or.inr ⟨fid, folId, hsave, rfl⟩)

/-- Claim C4 amended: in every ledger state reachable through the
subsystem's own transitions, a row in processing or uploading has a
non-empty videoTaskId, and a done row has a non-empty videoFileId.
The claimed biconditionals do not hold: a direct video upload creates a
done row with an empty videoTaskId, a failed row keeps its videoTaskId,
and re-queuing a done row keeps its videoFileId. -/
theorem C4_amended_invariant (L : List Row) (h : Reaches L) :
    ∀ r ∈ L, rowInvariant r := by
  induction h with
  | nil =>
    intro r hr
    simp at hr
  | upload L isVideo fileId sess h hfid ih =>
    intro r hr
    rcases List.mem_append.mp hr with hr | hr
    · exact ih r hr
    · have hr2 := List.mem_singleton.mp hr
      subst hr2
      cases isVideo
      · constructor
        · intro hst
          rcases hst with hst | hst <;> simp [appendUpload] at hst
        · intro hst
          simp [appendUpload] at hst
      · constructor
        · intro hst
          rcases hst with hst | hst <;> simp [appendUpload] at hst
        · intro _
          simpa [appendUpload] using hfid
  | queue L req h ih =>
    intro r2 hr2
    rcases mem_queueVideo L req r2 hr2 with hmem | ⟨r, hr, rfl⟩
    · exact ih r2 hmem
    · constructor
      · intro hst
        rcases hst with hst | hst <;> simp [applyQueue] at hst
      · intro hst
        simp [applyQueue] at hst
  | startUpd L p tid h ht ih =>
    intro r2 hr2
    rcases mem_updateVideoStatus L _ r2 hr2 with hmem | ⟨r, hr, rfl, hcas⟩
    · exact ih r2 hmem
    · have htt : truthy (some tid) = true := truthy_some tid ht
      have hts : truthy (some "processing") = true := rfl
      constructor
      · intro _
        simpa [applyUpdate, htt] using ht
      · intro hst
        simp [applyUpdate, hts] at hst
  | lockUpd L p u2 h hu ih =>
    intro r2 hr2
    rcases mem_updateVideoStatus L _ r2 hr2 with hmem | ⟨r, hr, rfl, hcas⟩
    · exact ih r2 hmem
    · have hst : r.videoStatus = "processing" := hcas rfl
      have htask : r.videoTaskId ≠ "" := (ih r hr).1 (Or.inl hst)
      have hsts : truthy (some "uploading") = true := rfl
      constructor
      · intro _
        simpa [applyUpdate, truthy] using htask
      · intro hd
        simp [applyUpdate, hsts] at hd
  | failUpd L p h ih =>
    intro r2 hr2
    rcases mem_updateVideoStatus L _ r2 hr2 with hmem | ⟨r, hr, rfl, hcas⟩
    · exact ih r2 hmem
    · have hsts : truthy (some "failed") = true := rfl
      constructor
      · intro hst
        rcases hst with hst | hst <;> simp [applyUpdate, hsts] at hst
      · intro hst
        simp [applyUpdate, hsts] at hst
  | finalize env L req h hsave ih =>
    intro r2 hr2
    rcases finalize_fst env L req with hf | hf | ⟨fid, folId, hs, hf⟩
    · rw [hf] at hr2
      exact ih r2 hr2
    · rw [hf] at hr2
      rcases mem_mutateFirst _ L _ r2 hr2 with hmem | ⟨r, hr, rfl⟩
      · exact ih r2 hmem
      · constructor
        · intro hst
          rcases hst with hst | hst <;> simp [setStatus] at hst
        · intro hst
          simp [setStatus] at hst
    · rw [hf] at hr2
      rcases mem_mutateFirst _ L _ r2 hr2 with hmem | ⟨r, hr, rfl⟩
      · exact ih r2 hmem
      · have hfid := hsave fid folId hs
        constructor
        · intro hst
          rcases hst with hst | hst <;> simp [markDone] at hst
        · intro _
          simpa [markDone] using hfid

/-- Witness for C4 amended at a concrete input: the reachable
one-row ledger created by a direct video upload satisfies the amended
one-directional invariant. -/
theorem C4_amended_invariant_witness :
    rowInvariant ⟨"F1", "done", "", "", "F1", "", "", "", ""⟩ :=
  C4_amended_invariant [⟨"F1", "done", "", "", "F1", "", "", "", ""⟩]
    (Reaches.upload [] true "F1" "" Reaches.nil (by decide))
    ⟨"F1", "done", "", "", "F1", "", "", "", ""⟩ (by decide)

/-- Claim C8: every resolution reaching the provider lies in
{480p, 720p}: the endpoint defaults a missing value to 480p and coerces
any out-of-set value to 480p before building the request, and the ark
client itself never issues a request with a resolution outside that set —
it rejects instead. -/
theorem C8_resolution_normalized :
    (∀ o : Option String, normalizeResolution o = "480p" ∨ normalizeResolution o = "720p")
    ∧ normalizeResolution none = "480p"
    ∧ (∀ s : String, s ≠ "480p" → s ≠ "720p" → normalizeResolution (some s) = "480p")
    ∧ (∀ p : ArkVideoPayload, ∀ r : ArkVideoRequest,
        startArkVideoTaskRequest p = Except.ok r →
          r.resolution = "480p" ∨ r.resolution = "720p")
    ∧ (∀ p : ArkVideoPayload, truthy p.resolution = true →
        p.resolution.getD "" ≠ "480p" → p.resolution.getD "" ≠ "720p" →
        startArkVideoTaskRequest p
          = Except.error ("Invalid resolution: " ++ p.resolution.getD ""
              ++ ". Allowed: 480p, 720p.")) := by
  refine ⟨?_, rfl, ?_, ?_, ?_⟩
  · intro o
    simp only [normalizeResolution]
    set v := if truthy o then o.getD "" else "480p" with hv
    by_cases hc : v ≠ "720p" ∧ v ≠ "480p"
    · left
      simp [hc]
    · rw [if_neg hc]
      rcases Decidable.not_and_iff_or_not.mp hc with h | h
      · right
        simpa using h
      · left
        simpa using h
  · intro s h4 h7
    by_cases ht : truthy (some s) = true
    · simp [normalizeResolution, ht, h4, h7]
    · simp only [Bool.not_eq_true] at ht
      simp [normalizeResolution, ht]
  · intro p r hok
    simp only [startArkVideoTaskRequest] at hok
    set v := if truthy p.resolution then p.resolution.getD "" else "480p" with hv
    by_cases hc : v ≠ "480p" ∧ v ≠ "720p"
    · rw [if_pos hc] at hok
      simp at hok
    · rw [if_neg hc] at hok
      injection hok with h2
      subst h2
      rcases Decidable.not_and_iff_or_not.mp hc with h | h
      · left
        simpa using h
      · right
        simpa using h
  · intro p ht h4 h7
    simp [startArkVideoTaskRequest, ht, h4, h7]

/-- Witness for C8 at a concrete input: 1080p is coerced to 480p by the
endpoint and rejected by the ark client. -/
theorem C8_resolution_normalized_witness :
    normalizeResolution (some "1080p") = "480p"
    ∧ startArkVideoTaskRequest
        ⟨"seedance-1-0-pro-fast-251015", "p", none, some 5, some "1080p"⟩
      = Except.error ("Invalid resolution: "
          ++ ((some "1080p" : Option String).getD "") ++ ". Allowed: 480p, 720p.") :=
  ⟨C8_resolution_normalized.2.2.1 "1080p" (by decide) (by decide),
   C8_resolution_normalized.2.2.2.2
     ⟨"seedance-1-0-pro-fast-251015", "p", none, some 5, some "1080p"⟩
     (by decide) (by decide) (by decide)⟩

/-- Claim C9: when the provider accepted the generation task (a task id
came back), the endpoint answers 200 with ok true, the task id and status
processing, whatever happened to the retried ledger bookkeeping write —
including total failure. -/
theorem C9_success_despite_ledger_failure (env : GenEnv) (req : GenReq) (taskId : String)
    (hmodel : isValidVideoModel (selectedModelOf env req) = true)
    (hinput : truthy req.driveFileId = true)
    (hstart : env.startResult = Except.ok taskId) :
    (genHandler env req).2
      = GenResp.ok200 taskId "processing" (normalizeResolution req.resolution) := by
  unfold genHandler
  rw [hmodel, hinput, hstart]
  split
  · next hcontra => simp at hcontra
  · rcases env.gasUpdate with m | u <;>
      by_cases hg : (truthy env.gasUrl && true) = true <;>
      simp [hg]

/-- Witness for C9 at a concrete input: the ledger write fails after all
retries, yet the response is the 200 success body. -/
theorem C9_success_despite_ledger_failure_witness :
    (genHandler envW9 ⟨some "Cinematic", none, some "D1", none, none, some "1080p"⟩).2
      = GenResp.ok200 "task-123" "processing"
          (normalizeResolution (some "1080p")) :=
  C9_success_despite_ledger_failure envW9
    ⟨some "Cinematic", none, some "D1", none, none, some "1080p"⟩ "task-123"
    (by decide) (by decide) rfl

end Serv2x2
